import Mathlib

/-!
Verification of the KStars polar-axis geometry kernel (`ekos/align/poleaxis.cpp`)
and the rotator angle-convention converter (`ekos/auxiliary/rotatorutils.cpp`).

The rotator arithmetic is embedded over `ℚ` (exact arithmetic standing in for
the C++ `double`s); the spherical geometry, which uses `sqrt`, `sin`, `cos`,
`asin` and `atan2`, is embedded over `ℝ`.
-/

/-- Modelled from the spec: `KSUtils::range360` (declared outside the reviewed
fragment) normalizes an angle into the circular range `[0, 360)`, preserving the
value modulo 360. -/
def range360 (r : ℚ) : ℚ := r - 360 * ⌊r / 360⌋

/-- Modelled from the spec: `KSUtils::rangePA` (declared outside the reviewed
fragment) normalizes an angle into the signed position-angle range `(-180, 180]`,
preserving the value modulo 360. -/
def rangePA (r : ℚ) : ℚ := r - 360 * ⌈(r - 180) / 360⌉

namespace RotatorUtils

/-- Pier side enumeration `ISD::Mount::PierSide`: unknown, west or east. -/
inductive PierSide where
  | pierUnknown : PierSide
  | pierWest : PierSide
  | pierEast : PierSide
deriving DecidableEq, Repr

/-- The mutable member state of the `RotatorUtils` singleton: `m_Offset`,
`m_flippedMount`, `m_CalPierside` and `m_ImgPierside`. -/
structure State where
  offset : ℚ
  flippedMount : Bool
  calPierside : PierSide
  imgPierside : PierSide

/-- `RotatorUtils::calcRotatorAngle(PositionAngle)`, in state-passing form:
if `m_flippedMount` add 180 to the position angle, then return
`range360(PositionAngle - m_Offset)`. The method assigns no member, so the
state component of the result is the input state. -/
def calcRotatorAngleM (s : State) (PositionAngle : ℚ) : ℚ × State :=
  let PositionAngle := if s.flippedMount then PositionAngle + 180 else PositionAngle
  (range360 (PositionAngle - s.offset), s)

/-- Value part of `RotatorUtils::calcRotatorAngle`. -/
def calcRotatorAngle (s : State) (PositionAngle : ℚ) : ℚ :=
  (calcRotatorAngleM s PositionAngle).1

/-- `RotatorUtils::calcCameraAngle(RotatorAngle, flippedImage)`, in state-passing
form: fold the rotator angle into the signed range and add `m_Offset`; when
`!m_flippedMount != !flippedImage` (XOR) apply a 180° correction whose sign
keeps the value in range; finally normalize with `rangePA`. -/
def calcCameraAngleM (s : State) (RotatorAngle : ℚ) (flippedImage : Bool) : ℚ × State :=
  let PositionAngle : ℚ :=
    if RotatorAngle > 180 then (RotatorAngle - 360) + s.offset else RotatorAngle + s.offset
  let PositionAngle : ℚ :=
    if (!s.flippedMount) ≠ (!flippedImage) then
      if PositionAngle > 0 then PositionAngle - 180 else PositionAngle + 180
    else PositionAngle
  (rangePA PositionAngle, s)

/-- Value part of `RotatorUtils::calcCameraAngle`. -/
def calcCameraAngle (s : State) (RotatorAngle : ℚ) (flippedImage : Bool) : ℚ :=
  (calcCameraAngleM s RotatorAngle flippedImage).1

/-- `RotatorUtils::calcOffsetAngle(RotatorAngle, PositionAngle)`, in
state-passing form: fold the rotator angle into the signed range, subtract it
from the position angle, subtract 180 when `m_flippedMount`, normalize with
`rangePA`. -/
def calcOffsetAngleM (s : State) (RotatorAngle PositionAngle : ℚ) : ℚ × State :=
  let OffsetAngle : ℚ :=
    if RotatorAngle > 180 then PositionAngle - (RotatorAngle - 360)
    else PositionAngle - RotatorAngle
  let OffsetAngle : ℚ := if s.flippedMount then OffsetAngle - 180 else OffsetAngle
  (rangePA OffsetAngle, s)

/-- Value part of `RotatorUtils::calcOffsetAngle`. -/
def calcOffsetAngle (s : State) (RotatorAngle PositionAngle : ℚ) : ℚ :=
  (calcOffsetAngleM s RotatorAngle PositionAngle).1

/-- `RotatorUtils::updateOffset(Angle)`: store the new offset (persisting it to
`Options` is an external collaborator, not modelled). -/
def updateOffset (s : State) (Angle : ℚ) : State :=
  { s with offset := Angle }

/-- `RotatorUtils::setImagePierside(ImgPierside)`: store the image pier side. -/
def setImagePierside (s : State) (ImgPierside : PierSide) : State :=
  { s with imgPierside := ImgPierside }

/-- `RotatorUtils::checkImageFlip()`, in state-passing form: start from
`flipped = false`; when `m_ImgPierside != PIER_UNKNOWN` and
`!m_flippedMount != (m_ImgPierside == m_CalPierside)` (XOR), set `flipped`
to true. -/
def checkImageFlipM (s : State) : Bool × State :=
  let flipped :=
    if s.imgPierside ≠ PierSide.pierUnknown then
      if (!s.flippedMount) ≠ decide (s.imgPierside = s.calPierside) then true
      else false
    else false
  (flipped, s)

/-- Value part of `RotatorUtils::checkImageFlip`. -/
def checkImageFlip (s : State) : Bool :=
  (checkImageFlipM s).1

/-- `RotatorUtils::DiffPA(diff)`, in state-passing form: `360 - diff` when
`diff > 180`, else `diff`. Reads and writes no member. -/
def DiffPAM (s : State) (diff : ℚ) : ℚ × State :=
  (if diff > 180 then 360 - diff else diff, s)

/-- Value part of `RotatorUtils::DiffPA`. -/
def DiffPA (s : State) (diff : ℚ) : ℚ :=
  (DiffPAM s diff).1

/-- The lambda connected to `ISD::Mount::pierSideChanged` in
`RotatorUtils::initRotatorUtils`: on a pier-side change it sets
`m_flippedMount = (Side != m_CalPierside)`. -/
def onPierSideChanged (s : State) (Side : PierSide) : State :=
  { s with flippedMount := decide (Side ≠ s.calPierside) }

end RotatorUtils

namespace PoleAxis

/-- The 3-component vector `PoleAxis::V3`. The C++ stores `float` components;
they are idealized as exact reals here. -/
structure V3 where
  x : ℝ
  y : ℝ
  z : ℝ

/-- The default-constructed `V3()`: the zero vector. -/
def V3.zero : V3 := ⟨0, 0, 0⟩

/-- Componentwise difference, as inlined in `PoleAxis::V3::normal`
(`V3(v2.x() - v1.x(), v2.y() - v1.y(), v2.z() - v1.z())`). -/
def V3.sub (a b : V3) : V3 := ⟨a.x - b.x, a.y - b.y, a.z - b.z⟩

/-- The cross product as inlined in `PoleAxis::V3::normal`. -/
def V3.cross (a b : V3) : V3 :=
  ⟨a.y * b.z - a.z * b.y, a.z * b.x - a.x * b.z, a.x * b.y - a.y * b.x⟩

/-- Componentwise negation (used only to state the reversal antisymmetry). -/
def V3.neg (v : V3) : V3 := ⟨-v.x, -v.y, -v.z⟩

/-- `PoleAxis::V3::normal(v1, v2, v3)`: cross product of `v2 - v1` and
`v3 - v2`, normalized to unit length; if the squared length of the cross
product is zero it returns the default `V3()` (the zero vector) instead of
dividing. -/
noncomputable def V3.normal (v1 v2 v3 : V3) : V3 :=
  let d21 := V3.sub v2 v1
  let d31 := V3.sub v3 v2
  let cross := V3.cross d21 d31
  let lenSq := cross.x * cross.x + cross.y * cross.y + cross.z * cross.z
  if lenSq = 0 then V3.zero
  else
    let len := Real.sqrt lenSq
    ⟨cross.x / len, cross.y / len, cross.z / len⟩

/-- `PoleAxis::V3::length()`: the Euclidean magnitude `sqrt(X*X + Y*Y + Z*Z)`. -/
noncomputable def V3.length (v : V3) : ℝ :=
  Real.sqrt (v.x * v.x + v.y * v.y + v.z * v.z)

/-- `PoleAxis::dirCos(primary, secondary)`: spherical-to-Cartesian conversion
`(cos(sec)·cos(pri), cos(sec)·sin(pri), sin(sec))`. Angles are in radians
(the C++ `dms` wrapper's `.sin()`/`.cos()` evaluate the same trigonometric
functions of the stored angle). -/
noncomputable def dirCos (primaryAngle secondaryAngle : ℝ) : V3 :=
  ⟨Real.cos secondaryAngle * Real.cos primaryAngle,
   Real.cos secondaryAngle * Real.sin primaryAngle,
   Real.sin secondaryAngle⟩

/-- A sky position `SkyPoint`, reduced to its two angles (radians): `ra`
(primary / hour angle) and `dec` (secondary / declination). -/
structure SkyPoint where
  ra : ℝ
  dec : ℝ

/-- `PoleAxis::dirCos(const SkyPoint sp)`: `dirCos(sp.ra(), sp.dec())`. -/
noncomputable def dirCosSP (sp : SkyPoint) : V3 := dirCos sp.ra sp.dec

/-- The two-argument arctangent `std::atan2(y, x)`, with value in `(-π, π]`,
realized as the complex argument of `x + y·i`. -/
noncomputable def atan2 (y x : ℝ) : ℝ := Complex.arg ⟨x, y⟩

/-- `PoleAxis::primary(dirCos)`: `atan2(dirCos.y(), dirCos.x())` (radians). -/
noncomputable def primaryOf (v : V3) : ℝ := atan2 v.y v.x

/-- `PoleAxis::secondary(dirCos)`: `asin(dirCos.z())` (radians). -/
noncomputable def secondaryOf (v : V3) : ℝ := Real.arcsin v.z

/-- `PoleAxis::poleAxis(p1, p2, p3)`: convert the three sky positions to
Cartesian vectors and return the normal of their plane. The sign is returned
exactly as computed (the northern-solution flip in the C++ is commented out). -/
noncomputable def poleAxis (p1 p2 p3 : SkyPoint) : V3 :=
  V3.normal (dirCosSP p1) (dirCosSP p2) (dirCosSP p3)

end PoleAxis

/-! ## Normalization lemmas for `range360` and `rangePA` -/

theorem range360_add_int (x : ℚ) (k : ℤ) : range360 (x + 360 * k) = range360 x := by
  unfold range360
  have h : (x + 360 * k) / 360 = x / 360 + k := by
    field_simp
    ring
  rw [h, Int.floor_add_int]
  push_cast
  ring

theorem range360_eq_self (x : ℚ) (h0 : 0 ≤ x) (h1 : x < 360) : range360 x = x := by
  unfold range360
  have h : ⌊x / 360⌋ = 0 := by
    rw [Int.floor_eq_zero_iff]
    constructor
    · positivity
    · rw [div_lt_one (by norm_num)]
      linarith
  rw [h]
  simp

theorem range360_eq_of_congr (x y : ℚ) (h0 : 0 ≤ y) (h1 : y < 360) (k : ℤ)
    (hk : x = y + 360 * k) : range360 x = y := by
  rw [hk, range360_add_int, range360_eq_self y h0 h1]

theorem rangePA_add_int (x : ℚ) (k : ℤ) : rangePA (x + 360 * k) = rangePA x := by
  unfold rangePA
  have h : (x + 360 * k - 180) / 360 = (x - 180) / 360 + k := by
    field_simp
    ring
  rw [h, Int.ceil_add_int]
  push_cast
  ring

theorem rangePA_eq_self (x : ℚ) (h0 : -180 < x) (h1 : x ≤ 180) : rangePA x = x := by
  unfold rangePA
  have h : ⌈(x - 180) / 360⌉ = 0 := by
    rw [Int.ceil_eq_zero_iff, Set.mem_Ioc]
    constructor
    · rw [lt_div_iff₀ (by norm_num)]
      linarith
    · apply div_nonpos_of_nonpos_of_nonneg <;> norm_num
      linarith
  rw [h]
  simp

theorem rangePA_eq_of_congr (x y : ℚ) (h0 : -180 < y) (h1 : y ≤ 180) (k : ℤ)
    (hk : x = y + 360 * k) : rangePA x = y := by
  rw [hk, rangePA_add_int, rangePA_eq_self y h0 h1]

theorem rangePA_sub_self (x : ℚ) : ∃ k : ℤ, rangePA x = x + 360 * k := by
  refine ⟨-⌈(x - 180) / 360⌉, ?_⟩
  unfold rangePA
  push_cast
  ring

namespace RotatorUtils

/-- Claim C1 (counterexample): the claim states that `checkImageFlip` returns
true exactly when the calibration pier side is known and
`mountFlipped XOR (imagePierSide == imagePierSideAtCalibration)` holds. In the
state with `flippedMount = false`, `calPierside = imgPierside = pierWest`, the
claimed condition holds (the XOR is `xor false true = true` and the calibration
side is known), yet `checkImageFlip` returns `false`. -/
theorem checkImageFlip_claim_cex :
    checkImageFlip ⟨0, false, PierSide.pierWest, PierSide.pierWest⟩ = false ∧
    (⟨0, false, PierSide.pierWest, PierSide.pierWest⟩ : State).calPierside ≠
      PierSide.pierUnknown ∧
    Bool.xor (⟨0, false, PierSide.pierWest, PierSide.pierWest⟩ : State).flippedMount
      (decide ((⟨0, false, PierSide.pierWest, PierSide.pierWest⟩ : State).imgPierside =
        (⟨0, false, PierSide.pierWest, PierSide.pierWest⟩ : State).calPierside)) = true :=
  ⟨rfl, by decide, by decide⟩

/-- Claim C1 (amended): `checkImageFlip` returns true exactly when the stored
image pier side `m_ImgPierside` is known (not unknown) AND
`(NOT mountFlipped) XOR (imagePierSide == imagePierSideAtCalibration)` is true;
in every other case it returns false. -/
theorem checkImageFlip_characterization (s : State) :
    checkImageFlip s =
      (decide (s.imgPierside ≠ PierSide.pierUnknown) &&
        Bool.xor (!s.flippedMount) (decide (s.imgPierside = s.calPierside))) := by
  rcases s with ⟨o, f, c, i⟩
  cases f <;> cases c <;> cases i <;> rfl

/-- Claim C9: none of the query/conversion operations (`calcCameraAngle`,
`calcRotatorAngle`, `calcOffsetAngle`, `checkImageFlip`, `DiffPA`) modifies the
converter state, and the pier-side-change notification handler sets
`m_flippedMount` to `(new pier side != calibration pier side)` while leaving
every other field unchanged. -/
theorem queries_preserve_state (s : State) (a b d : ℚ) (fi : Bool) (side : PierSide) :
    (calcCameraAngleM s a fi).2 = s ∧
    (calcRotatorAngleM s a).2 = s ∧
    (calcOffsetAngleM s a b).2 = s ∧
    (checkImageFlipM s).2 = s ∧
    (DiffPAM s d).2 = s ∧
    (onPierSideChanged s side).flippedMount = decide (side ≠ s.calPierside) ∧
    (onPierSideChanged s side).offset = s.offset ∧
    (onPierSideChanged s side).calPierside = s.calPierside ∧
    (onPierSideChanged s side).imgPierside = s.imgPierside :=
  ⟨rfl, rfl, rfl, rfl, rfl, rfl, rfl, rfl, rfl⟩

/-- Claim C10: whenever the stored image pier side (set via `setImagePierside`)
is `PIER_UNKNOWN`, `checkImageFlip` returns false, for every value of
`mountFlipped` and of the calibration pier side. -/
theorem checkImageFlip_unknown_guard (s : State)
    (h : s.imgPierside = PierSide.pierUnknown) : checkImageFlip s = false := by
  simp [checkImageFlip, checkImageFlipM, h]

/-- Claim C10 witness: after `setImagePierside` with `PIER_UNKNOWN`, the guard
theorem applies and `checkImageFlip` is false on a concrete state with a flipped
mount and a known calibration pier side. -/
theorem checkImageFlip_unknown_guard_witness :
    (setImagePierside ⟨0, true, PierSide.pierWest, PierSide.pierEast⟩
        PierSide.pierUnknown).imgPierside = PierSide.pierUnknown ∧
    checkImageFlip (setImagePierside ⟨0, true, PierSide.pierWest, PierSide.pierEast⟩
        PierSide.pierUnknown) = false :=
  ⟨rfl, checkImageFlip_unknown_guard _ rfl⟩

end RotatorUtils

namespace RotatorUtils

/-- Claim C2: `calcCameraAngle` first computes
`(rotatorAngle > 180 ? (rotatorAngle - 360) + offset : rotatorAngle + offset)`;
if `mountFlipped XOR imageFlipped` it subtracts 180 when that value is positive
and adds 180 when it is non-positive; the result is that value normalized into
`(-180, 180]`. With `offset = 10`, `mountFlipped = false`,
`imageFlipped = false`, `rotatorAngle = 200` the result is `-150`. -/
theorem calcCameraAngle_formula :
    (∀ (s : State) (RotatorAngle : ℚ) (flippedImage : Bool),
      calcCameraAngle s RotatorAngle flippedImage =
        rangePA
          (if Bool.xor s.flippedMount flippedImage then
            (if (if RotatorAngle > 180 then (RotatorAngle - 360) + s.offset
                 else RotatorAngle + s.offset) > 0 then
              (if RotatorAngle > 180 then (RotatorAngle - 360) + s.offset
               else RotatorAngle + s.offset) - 180
             else
              (if RotatorAngle > 180 then (RotatorAngle - 360) + s.offset
               else RotatorAngle + s.offset) + 180)
           else
            (if RotatorAngle > 180 then (RotatorAngle - 360) + s.offset
             else RotatorAngle + s.offset))) ∧
    calcCameraAngle ⟨10, false, PierSide.pierUnknown, PierSide.pierUnknown⟩ 200 false = -150 := by
  constructor
  · intro s RotatorAngle flippedImage
    rcases s with ⟨o, f, c, i⟩
    cases f <;> cases flippedImage <;>
      simp [calcCameraAngle, calcCameraAngleM]
  · norm_num [calcCameraAngle, calcCameraAngleM, rangePA]

end RotatorUtils

namespace RotatorUtils

/-- Claim C4: for every rotator angle in `[0, 360)`, every offset and every
mount-flip state (image-flip flag false), `calcRotatorAngle` applied to
`calcCameraAngle` of that angle, in the same state, recovers the original
rotator angle. -/
theorem camera_rotator_roundtrip (s : State) (ra : ℚ) (h0 : 0 ≤ ra) (h1 : ra < 360) :
    calcRotatorAngle s (calcCameraAngle s ra false) = ra := by
  rcases s with ⟨o, f, c, i⟩
  cases f <;>
    simp only [calcRotatorAngle, calcRotatorAngleM, calcCameraAngle, calcCameraAngleM] <;>
    simp <;> split_ifs
  · obtain ⟨k, hk⟩ := rangePA_sub_self ((ra - 360) + o)
    rw [hk]
    exact range360_eq_of_congr _ ra h0 h1 (k - 1) (by push_cast; ring)
  · obtain ⟨k, hk⟩ := rangePA_sub_self (ra + o)
    rw [hk]
    exact range360_eq_of_congr _ ra h0 h1 k (by ring)
  · obtain ⟨k, hk⟩ := rangePA_sub_self ((ra - 360) + o - 180)
    rw [hk]
    exact range360_eq_of_congr _ ra h0 h1 (k - 1) (by push_cast; ring)
  · obtain ⟨k, hk⟩ := rangePA_sub_self ((ra - 360) + o + 180)
    rw [hk]
    exact range360_eq_of_congr _ ra h0 h1 k (by ring)
  · obtain ⟨k, hk⟩ := rangePA_sub_self (ra + o - 180)
    rw [hk]
    exact range360_eq_of_congr _ ra h0 h1 k (by ring)
  · obtain ⟨k, hk⟩ := rangePA_sub_self (ra + o + 180)
    rw [hk]
    exact range360_eq_of_congr _ ra h0 h1 (k + 1) (by push_cast; ring)

/-- Claim C4 witness: the round trip at the concrete state with offset 10 and a
flipped mount, rotator angle 200. -/
theorem camera_rotator_roundtrip_witness :
    (0 : ℚ) ≤ 200 ∧ (200 : ℚ) < 360 ∧
    calcRotatorAngle ⟨10, true, PierSide.pierWest, PierSide.pierEast⟩
      (calcCameraAngle ⟨10, true, PierSide.pierWest, PierSide.pierEast⟩ 200 false) = 200 :=
  ⟨by norm_num, by norm_num,
    camera_rotator_roundtrip ⟨10, true, PierSide.pierWest, PierSide.pierEast⟩ 200
      (by norm_num) (by norm_num)⟩

end RotatorUtils

namespace RotatorUtils

/-- Claim C5: for every rotator angle in `[0, 360)`, every position angle in
`(-180, 180]` and every mount-flip state, installing the offset returned by
`calcOffsetAngle(rotatorAngle, positionAngle)` as the stored offset makes
`calcCameraAngle(rotatorAngle, false)` reproduce the position angle. -/
theorem offset_calibration_consistent (s : State) (ra pa : ℚ)
    (h0 : 0 ≤ ra) (h1 : ra < 360) (h2 : -180 < pa) (h3 : pa ≤ 180) :
    calcCameraAngle (updateOffset s (calcOffsetAngle s ra pa)) ra false = pa := by
  rcases s with ⟨o, f, c, i⟩
  cases f <;>
    simp only [calcCameraAngle, calcCameraAngleM, calcOffsetAngle, calcOffsetAngleM,
      updateOffset] <;>
    simp <;> split_ifs
  · obtain ⟨k, hk⟩ := rangePA_sub_self (pa - (ra - 360))
    rw [hk]
    exact rangePA_eq_of_congr _ pa h2 h3 k (by ring)
  · obtain ⟨k, hk⟩ := rangePA_sub_self (pa - ra)
    rw [hk]
    exact rangePA_eq_of_congr _ pa h2 h3 k (by ring)
  · obtain ⟨k, hk⟩ := rangePA_sub_self (pa - (ra - 360) - 180)
    rw [hk]
    exact rangePA_eq_of_congr _ pa h2 h3 (k - 1) (by push_cast; ring)
  · obtain ⟨k, hk⟩ := rangePA_sub_self (pa - (ra - 360) - 180)
    rw [hk]
    exact rangePA_eq_of_congr _ pa h2 h3 k (by ring)
  · obtain ⟨k, hk⟩ := rangePA_sub_self (pa - ra - 180)
    rw [hk]
    exact rangePA_eq_of_congr _ pa h2 h3 (k - 1) (by push_cast; ring)
  · obtain ⟨k, hk⟩ := rangePA_sub_self (pa - ra - 180)
    rw [hk]
    exact rangePA_eq_of_congr _ pa h2 h3 k (by ring)

/-- Claim C5 witness: calibration self-consistency at the concrete state with a
flipped mount, rotator angle 200 and position angle 100. -/
theorem offset_calibration_consistent_witness :
    (0 : ℚ) ≤ 200 ∧ (200 : ℚ) < 360 ∧ (-180 : ℚ) < 100 ∧ (100 : ℚ) ≤ 180 ∧
    calcCameraAngle
      (updateOffset ⟨0, true, PierSide.pierWest, PierSide.pierWest⟩
        (calcOffsetAngle ⟨0, true, PierSide.pierWest, PierSide.pierWest⟩ 200 100))
      200 false = 100 :=
  ⟨by norm_num, by norm_num, by norm_num, by norm_num,
    offset_calibration_consistent ⟨0, true, PierSide.pierWest, PierSide.pierWest⟩ 200 100
      (by norm_num) (by norm_num) (by norm_num) (by norm_num)⟩

end RotatorUtils

namespace PoleAxis

/-- Squared-magnitude characterization of the zero vector: the sum of squared
components of a `V3` vanishes exactly for the zero vector. -/
theorem V3.lenSq_eq_zero_iff (v : V3) :
    v.x * v.x + v.y * v.y + v.z * v.z = 0 ↔ v = V3.zero := by
  constructor
  · intro h
    have hx : v.x = 0 := by
      nlinarith [mul_self_nonneg v.x, mul_self_nonneg v.y, mul_self_nonneg v.z]
    have hy : v.y = 0 := by
      nlinarith [mul_self_nonneg v.x, mul_self_nonneg v.y, mul_self_nonneg v.z]
    have hz : v.z = 0 := by
      nlinarith [mul_self_nonneg v.x, mul_self_nonneg v.y, mul_self_nonneg v.z]
    cases v
    simp_all [V3.zero]
  · intro h
    rw [h]
    simp [V3.zero]

/-- Claim C3: whenever the three points are non-collinear (the cross product of
`v2 - v1` and `v3 - v2` is nonzero), `V3.normal` has magnitude exactly 1;
whenever that cross product is zero (in particular when the points are
identical or collinear) it returns the zero vector. The function is total, so
it never fails. -/
theorem normal_unit_or_zero (v1 v2 v3 : V3) :
    (V3.cross (V3.sub v2 v1) (V3.sub v3 v2) ≠ V3.zero →
      V3.length (V3.normal v1 v2 v3) = 1) ∧
    (V3.cross (V3.sub v2 v1) (V3.sub v3 v2) = V3.zero →
      V3.normal v1 v2 v3 = V3.zero) := by
  set c := V3.cross (V3.sub v2 v1) (V3.sub v3 v2) with hc
  have hnn : 0 ≤ c.x * c.x + c.y * c.y + c.z * c.z :=
    add_nonneg (add_nonneg (mul_self_nonneg c.x) (mul_self_nonneg c.y)) (mul_self_nonneg c.z)
  constructor
  · intro h
    have hlsq : c.x * c.x + c.y * c.y + c.z * c.z ≠ 0 := fun h0 =>
      h ((V3.lenSq_eq_zero_iff c).mp h0)
    have hL : Real.sqrt (c.x * c.x + c.y * c.y + c.z * c.z) *
        Real.sqrt (c.x * c.x + c.y * c.y + c.z * c.z) =
        c.x * c.x + c.y * c.y + c.z * c.z := Real.mul_self_sqrt hnn
    have hLne : Real.sqrt (c.x * c.x + c.y * c.y + c.z * c.z) ≠ 0 := by
      intro h0
      rw [h0, mul_zero] at hL
      exact hlsq hL.symm
    simp only [V3.normal, ← hc, if_neg hlsq, V3.length]
    have key : c.x / Real.sqrt (c.x * c.x + c.y * c.y + c.z * c.z) *
          (c.x / Real.sqrt (c.x * c.x + c.y * c.y + c.z * c.z)) +
        c.y / Real.sqrt (c.x * c.x + c.y * c.y + c.z * c.z) *
          (c.y / Real.sqrt (c.x * c.x + c.y * c.y + c.z * c.z)) +
        c.z / Real.sqrt (c.x * c.x + c.y * c.y + c.z * c.z) *
          (c.z / Real.sqrt (c.x * c.x + c.y * c.y + c.z * c.z)) = 1 := by
      field_simp
    rw [key, Real.sqrt_one]
  · intro h
    have hlsq : c.x * c.x + c.y * c.y + c.z * c.z = 0 := (V3.lenSq_eq_zero_iff c).mpr h
    simp only [V3.normal, ← hc, if_pos hlsq]

/-- Claim C3 witness: for the non-collinear triple `(1,0,0)`, `(0,1,0)`,
`(-1,0,0)` the cross product is nonzero and the normal has magnitude 1; for
the identical triple `(1,0,0)` three times, the cross product vanishes and the
normal is the zero vector. -/
theorem normal_unit_or_zero_witness :
    (V3.cross (V3.sub ⟨0, 1, 0⟩ ⟨1, 0, 0⟩) (V3.sub ⟨-1, 0, 0⟩ ⟨0, 1, 0⟩) ≠ V3.zero ∧
      V3.length (V3.normal ⟨1, 0, 0⟩ ⟨0, 1, 0⟩ ⟨-1, 0, 0⟩) = 1) ∧
    (V3.cross (V3.sub ⟨1, 0, 0⟩ ⟨1, 0, 0⟩) (V3.sub ⟨1, 0, 0⟩ ⟨1, 0, 0⟩) = V3.zero ∧
      V3.normal ⟨1, 0, 0⟩ ⟨1, 0, 0⟩ ⟨1, 0, 0⟩ = V3.zero) := by
  have hne : V3.cross (V3.sub (⟨0, 1, 0⟩ : V3) ⟨1, 0, 0⟩) (V3.sub ⟨-1, 0, 0⟩ ⟨0, 1, 0⟩) ≠
      V3.zero := by
    simp [V3.cross, V3.sub, V3.zero, V3.mk.injEq]
  have heq : V3.cross (V3.sub (⟨1, 0, 0⟩ : V3) ⟨1, 0, 0⟩) (V3.sub ⟨1, 0, 0⟩ ⟨1, 0, 0⟩) =
      V3.zero := by
    simp [V3.cross, V3.sub, V3.zero]
  exact ⟨⟨hne, (normal_unit_or_zero _ _ _).1 hne⟩, ⟨heq, (normal_unit_or_zero _ _ _).2 heq⟩⟩

/-- Claim C7: for every non-collinear triple, reversing the traversal order
negates the plane normal: `normal(v3, v2, v1) = -normal(v1, v2, v3)`. -/
theorem normal_reversal (v1 v2 v3 : V3)
    (h : V3.cross (V3.sub v2 v1) (V3.sub v3 v2) ≠ V3.zero) :
    V3.normal v3 v2 v1 = V3.neg (V3.normal v1 v2 v3) := by
  set c := V3.cross (V3.sub v2 v1) (V3.sub v3 v2) with hc
  set d := V3.cross (V3.sub v2 v3) (V3.sub v1 v2) with hd
  have hx : d.x = -c.x := by simp only [hc, hd, V3.cross, V3.sub]; ring
  have hy : d.y = -c.y := by simp only [hc, hd, V3.cross, V3.sub]; ring
  have hz : d.z = -c.z := by simp only [hc, hd, V3.cross, V3.sub]; ring
  have hls : d.x * d.x + d.y * d.y + d.z * d.z = c.x * c.x + c.y * c.y + c.z * c.z := by
    rw [hx, hy, hz]; ring
  have hlsq : c.x * c.x + c.y * c.y + c.z * c.z ≠ 0 := fun h0 =>
    h ((V3.lenSq_eq_zero_iff c).mp h0)
  have hlsq2 : d.x * d.x + d.y * d.y + d.z * d.z ≠ 0 := by rw [hls]; exact hlsq
  simp only [V3.normal, ← hc, ← hd]
  rw [if_neg hlsq2, if_neg hlsq]
  simp only [V3.neg, V3.mk.injEq, hls, hx, hy, hz]
  have hneg : -c.x * -c.x + -c.y * -c.y + -c.z * -c.z = c.x * c.x + c.y * c.y + c.z * c.z := by
    ring
  refine ⟨?_, ?_, ?_⟩ <;> rw [neg_div, hneg]

/-- Claim C7 witness: reversal antisymmetry at the concrete non-collinear
triple `(1,0,0)`, `(0,1,0)`, `(-1,0,0)`. -/
theorem normal_reversal_witness :
    V3.cross (V3.sub ⟨0, 1, 0⟩ ⟨1, 0, 0⟩) (V3.sub ⟨-1, 0, 0⟩ ⟨0, 1, 0⟩) ≠ V3.zero ∧
    V3.normal ⟨-1, 0, 0⟩ ⟨0, 1, 0⟩ ⟨1, 0, 0⟩ =
      V3.neg (V3.normal ⟨1, 0, 0⟩ ⟨0, 1, 0⟩ ⟨-1, 0, 0⟩) := by
  have hne : V3.cross (V3.sub (⟨0, 1, 0⟩ : V3) ⟨1, 0, 0⟩) (V3.sub ⟨-1, 0, 0⟩ ⟨0, 1, 0⟩) ≠
      V3.zero := by
    simp [V3.cross, V3.sub, V3.zero, V3.mk.injEq]
  exact ⟨hne, normal_reversal ⟨1, 0, 0⟩ ⟨0, 1, 0⟩ ⟨-1, 0, 0⟩ hne⟩

end PoleAxis

namespace PoleAxis

/-- Evaluation of the square root of 4, used for the concrete equator triple. -/
theorem sqrt_four : Real.sqrt 4 = 2 := by
  rw [show (4 : ℝ) = 2 ^ 2 by norm_num, Real.sqrt_sq (by norm_num)]

/-- Claim C6: `poleAxis` returns exactly the plane normal of the three
direction cosines, with the sign left as computed (the northern-solution flip
is absent). For the three equator points at secondary 0 and primary 0, π/2, π
the result is `(0, 0, 1)` with magnitude 1, and in the reversed order it is
`(0, 0, -1)` — the sign is not canonicalized. -/
theorem poleAxis_is_plane_normal :
    (∀ p1 p2 p3 : SkyPoint, poleAxis p1 p2 p3 =
        V3.normal (dirCosSP p1) (dirCosSP p2) (dirCosSP p3)) ∧
    poleAxis ⟨0, 0⟩ ⟨Real.pi / 2, 0⟩ ⟨Real.pi, 0⟩ = (⟨0, 0, 1⟩ : V3) ∧
    V3.length (poleAxis ⟨0, 0⟩ ⟨Real.pi / 2, 0⟩ ⟨Real.pi, 0⟩) = 1 ∧
    poleAxis ⟨Real.pi, 0⟩ ⟨Real.pi / 2, 0⟩ ⟨0, 0⟩ = (⟨0, 0, -1⟩ : V3) := by
  have h1 : dirCosSP ⟨0, 0⟩ = ⟨1, 0, 0⟩ := by
    simp [dirCosSP, dirCos]
  have h2 : dirCosSP ⟨Real.pi / 2, 0⟩ = ⟨0, 1, 0⟩ := by
    simp [dirCosSP, dirCos]
  have h3 : dirCosSP ⟨Real.pi, 0⟩ = ⟨-1, 0, 0⟩ := by
    simp [dirCosSP, dirCos]
  have hfwd : poleAxis ⟨0, 0⟩ ⟨Real.pi / 2, 0⟩ ⟨Real.pi, 0⟩ = (⟨0, 0, 1⟩ : V3) := by
    rw [poleAxis, h1, h2, h3]
    simp only [V3.normal, V3.sub, V3.cross]
    norm_num
    rw [sqrt_four]
    norm_num
  have hrev : poleAxis ⟨Real.pi, 0⟩ ⟨Real.pi / 2, 0⟩ ⟨0, 0⟩ = (⟨0, 0, -1⟩ : V3) := by
    rw [poleAxis, h1, h2, h3]
    simp only [V3.normal, V3.sub, V3.cross]
    norm_num
    rw [sqrt_four]
    norm_num
  refine ⟨fun p1 p2 p3 => rfl, hfwd, ?_, hrev⟩
  rw [hfwd]
  simp [V3.length]

/-- Claim C8: for every unit vector with `z` strictly between -1 and 1 (away
from the singular poles), converting to the angle pair and back —
`dirCos(primary(v), secondary(v))` — recovers the vector exactly. -/
theorem dirCos_roundtrip (v : V3) (hunit : v.x * v.x + v.y * v.y + v.z * v.z = 1)
    (hlo : -1 < v.z) (hhi : v.z < 1) :
    dirCos (primaryOf v) (secondaryOf v) = v := by
  rcases v with ⟨x, y, z⟩
  simp only at hunit hlo hhi
  have hzz : 0 < 1 - z * z := by nlinarith
  have hxy : x * x + y * y = 1 - z * z := by linarith
  have hz0 : (⟨x, y⟩ : ℂ) ≠ 0 := by
    intro h0
    rw [Complex.ext_iff] at h0
    simp only [Complex.zero_re, Complex.zero_im] at h0
    nlinarith [h0.1, h0.2]
  have habs : Complex.abs ⟨x, y⟩ = Real.sqrt (1 - z * z) := by
    rw [Complex.abs_apply, Complex.normSq_mk, hxy]
  have hsq : Real.sqrt (1 - z * z) ≠ 0 := by
    have := Real.sqrt_pos.mpr hzz
    linarith
  have hcos : Real.cos (Real.arcsin z) = Real.sqrt (1 - z * z) := by
    rw [Real.cos_arcsin, show 1 - z ^ 2 = 1 - z * z from by ring]
  simp only [dirCos, primaryOf, secondaryOf, atan2, V3.mk.injEq]
  rw [hcos, Complex.cos_arg hz0, Complex.sin_arg, habs]
  refine ⟨?_, ?_, Real.sin_arcsin (by linarith) (by linarith)⟩
  · rw [mul_comm, div_mul_cancel₀ _ hsq]
  · rw [mul_comm, div_mul_cancel₀ _ hsq]

/-- Claim C8 witness: the round trip at the concrete unit vector `(1, 0, 0)`,
whose `z` component lies strictly between -1 and 1. -/
theorem dirCos_roundtrip_witness :
    ((⟨1, 0, 0⟩ : V3).x * (⟨1, 0, 0⟩ : V3).x + (⟨1, 0, 0⟩ : V3).y * (⟨1, 0, 0⟩ : V3).y +
      (⟨1, 0, 0⟩ : V3).z * (⟨1, 0, 0⟩ : V3).z = 1) ∧
    (-1 < (⟨1, 0, 0⟩ : V3).z) ∧ ((⟨1, 0, 0⟩ : V3).z < 1) ∧
    dirCos (primaryOf ⟨1, 0, 0⟩) (secondaryOf ⟨1, 0, 0⟩) = (⟨1, 0, 0⟩ : V3) :=
  ⟨by norm_num, by norm_num, by norm_num,
    dirCos_roundtrip ⟨1, 0, 0⟩ (by norm_num) (by norm_num) (by norm_num)⟩

end PoleAxis
